import Mathlib

/-!
Verification of the gordo data-preparation core: the preprocessor
registry/factory and the gap-aware `FillGapsPreprocessor` (embedded from
`gordo/machine/dataset/preprocessor.py`), and the tag-routed multi-provider
loader (modelled from the specification, since only its tests ship in the
repository).

Embedding conventions:
* Timestamps, time differences and cell values are `Int` (pandas timestamps
  and Timedeltas are totally ordered scalars; nothing here depends on more).
* A pandas `Series` becomes `Series`: its `.name`, its `.index.name` and the
  ordered list of (timestamp, value) pairs.
* A pandas `DataFrame` becomes `Table`: a column-name list plus rows of
  (timestamp, cells) with cells positionally aligned to the columns.
* Python exceptions become `Except String`; the string carries the error
  class. Statements never inspect the message text beyond equality at
  concrete points.
* Python keyword-argument dicts become `Record`, an association list from
  `String` to `CVal` (int or string scalars), with the dict invariant of
  unique keys stated as a hypothesis where it matters.
* The module-global registry dict `_types` becomes an explicit association
  list threaded through the registry functions.
-/

namespace Gordo

/-- A scalar configuration value of a keyword-argument record. -/
inductive CVal where
  | int (n : Int)
  | str (s : String)
  deriving DecidableEq, Repr

/-- A Python keyword-argument dict, as an association list. -/
abbrev Record := List (String × CVal)

/-- A pandas Series: tag name (`.name`), index name (`.index.name`, `none`
for an unnamed index) and the (timestamp, value) pairs in index order. -/
structure Series where
  name : String
  indexName : Option String
  data : List (Int × Int)
  deriving DecidableEq, Repr

/-- A pandas DataFrame: named columns and rows of (timestamp, cells), cells
aligned positionally with `cols`. -/
structure Table where
  cols : List String
  rows : List (Int × List Int)
  deriving DecidableEq, Repr

/-! ## Registry and factory

Embedding of the module-global `_types` dict and the functions
`preprocessor` (the registering decorator), `create_preprocessor` and
`normalize_preprocessor`. A registered constructor takes the remaining
keyword arguments and either constructs an instance or fails (a Python
`TypeError` on bad arguments). -/

/-- A registered constructor: keyword arguments to instance or error. -/
abbrev Ctor (α : Type) := Record → Except String α

/-- Registration: `preprocessor(preprocessor_type)` applied to a class `cls`: raises if the
name is already registered, otherwise adds the binding. The registry state is
explicit; Python mutates the module-global `_types`. -/
def preprocessor {α : Type} (types : List (String × Ctor α))
    (preprocessor_type : String) (cls : Ctor α) :
    Except String (List (String × Ctor α)) :=
  if (types.lookup preprocessor_type).isSome then
    .error ("ValueError: Preprocessor with name has already been added: "
      ++ preprocessor_type)
  else
    .ok (types ++ [(preprocessor_type, cls)])

/-- Construction: `create_preprocessor(preprocessor_type, **kwargs)`: not-found error for
an unregistered name, otherwise calls the registered constructor. -/
def create_preprocessor {α : Type} (types : List (String × Ctor α))
    (preprocessor_type : String) (kwargs : Record) : Except String α :=
  match types.lookup preprocessor_type with
  | none => .error ("ValueError: Cannot find a preprocessor with name: "
      ++ preprocessor_type)
  | some cls => cls kwargs

/-- The argument of `normalize_preprocessor`: either a configuration dict or
an already-constructed (non-dict) value passed through unchanged. -/
inductive PValue (α : Type) where
  | dict (r : Record)
  | inst (x : α)

/-- Embeds `value.pop(k)`: the value at the first binding of `k` together with the
record with that binding removed, or `none` when `k` is absent. -/
def popKey (r : Record) (k : String) : Option (CVal × Record) :=
  match r with
  | [] => none
  | (k', v) :: rest =>
    if k' = k then some (v, rest)
    else (popKey rest k).map fun p => (p.1, (k', v) :: p.2)

/-- Normalization: `normalize_preprocessor(value)`: a dict lacking `"type"` is a
configuration error; otherwise the dict is deep-copied, its `"type"` key
popped and the rest forwarded to `create_preprocessor` (the embedding is
pure, so the copy is implicit and the caller record is never altered); a
non-dict value is returned unchanged. A non-string `"type"` value cannot be
a key of the registry, so lookup fails with the not-found error. -/
def normalize_preprocessor {α : Type} (types : List (String × Ctor α))
    (value : PValue α) : Except String (PValue α) :=
  match value with
  | .dict r =>
    match popKey r "type" with
    | none => .error "ValueError: A preprocessor type is empty"
    | some (tv, rest) =>
      match tv with
      | .str preprocessor_type =>
        (create_preprocessor types preprocessor_type rest).map .inst
      | .int _ => .error "ValueError: Cannot find a preprocessor with name: "
  | .inst x => .ok (.inst x)

/-! ## FillGapsPreprocessor -/

/-- The state of a `FillGapsPreprocessor`: the configured threshold
`gap_size`, the `replace_value` sentinel and the gap registry `_gaps`
(a `defaultdict(list)`, embedded as an insertion-ordered association list
from tag name to recorded gap intervals). -/
structure FillGapsPreprocessor where
  gap_size : Int
  replace_value : Int
  gaps : List (String × List (Int × Int))
  deriving DecidableEq, Repr

/-- Constructor `FillGapsPreprocessor.__init__(gap_size, replace_value)` from keyword
arguments, as registered under `"fill_gaps"`. A string `gap_size` is parsed
by `pd.Timedelta`, a pandas facility external to this repository; the model
does not interpret duration literals and reports them as unmodelled. Extra
or missing keyword arguments are a Python `TypeError`. -/
def FillGapsPreprocessor.make (r : Record) : Except String FillGapsPreprocessor :=
  match r.lookup "gap_size", r.lookup "replace_value" with
  | some (.int gs), some (.int rv) =>
    if r.length = 2 then .ok ⟨gs, rv, []⟩
    else .error "TypeError: unexpected keyword argument"
  | some (.str _), some _ => .error "pd.Timedelta: external, not modelled"
  | _, _ => .error "TypeError: missing required argument"

/-- Embeds `reset()`: replace the gap registry by a fresh empty `defaultdict`. -/
def FillGapsPreprocessor.reset (p : FillGapsPreprocessor) : FillGapsPreprocessor :=
  { p with gaps := [] }

/-- Embeds `self._gaps[name].extend(gs)` on a `defaultdict(list)`: extend the list
at an existing key in place, or append a fresh binding at the end. -/
def gapsExtend (m : List (String × List (Int × Int))) (name : String)
    (gs : List (Int × Int)) : List (String × List (Int × Int)) :=
  match m with
  | [] => [(name, gs)]
  | (n, old) :: rest =>
    if n = name then (n, old ++ gs) :: rest
    else (n, old) :: gapsExtend rest name gs

/-- The rows of `pd.concat([idx, idx.diff()], axis=1)` past the first one:
(timestamp, difference to the previous timestamp), starting from previous
timestamp `prev`. -/
def diffRowsFrom (prev : Int) : List Int → List (Int × Int)
  | [] => []
  | t :: ts => (t, t - prev) :: diffRowsFrom t ts

/-- Embeds `df[df["Diff"] > self.gap_size]`: the diff rows whose difference
strictly exceeds the threshold. The first row of `idx.diff()` is `NaN`,
which never compares greater, so only genuine consecutive pairs remain. -/
def gapRows (gap_size : Int) (ts : List Int) : List (Int × Int) :=
  match ts with
  | [] => []
  | t :: rest => (diffRowsFrom t rest).filter fun r => decide (gap_size < r.2)

/-- Scanning one series: the gap pairs `(row["Time"], row["Time"] + row["Diff"])`
produced by materialising the generator in `prepare_series`. `row["Time"]`
looks the timestamp column up by the literal name `"Time"`; the column is
named after the series index, so when at least one filtered row exists and
the index is not named `"Time"`, the first iteration raises `KeyError`. With
no filtered rows the generator yields nothing and nothing is looked up. -/
def scanSeries (gap_size : Int) (s : Series) : Except String (List (Int × Int)) :=
  let rows := gapRows gap_size (s.data.map Prod.fst)
  if rows.isEmpty then .ok []
  else if s.indexName = some "Time" then
    .ok (rows.map fun r => (r.1, r.1 + r.2))
  else .error "KeyError: Time"

/-- Embeds `prepare_series(series)`: appends every incoming series unchanged to the
result, records its gap pairs under its name, and returns the new state with
the result list. A `KeyError` while materialising the gap pairs propagates
(in Python the partially-updated registry survives the exception; no claim
observes that partial state, so the error case carries no state). -/
def FillGapsPreprocessor.prepare_series (p : FillGapsPreprocessor)
    (series : List Series) : Except String (FillGapsPreprocessor × List Series) := do
  let gaps ← series.foldlM (fun acc s => do
    let gs ← scanSeries p.gap_size s
    return gapsExtend acc s.name gs) p.gaps
  return ({ p with gaps := gaps }, series)

/-- Embeds `df.columns.get_loc(name)`: position of the first column named `name`,
`none` (a pandas `KeyError` at the call site) when absent. -/
def get_loc (cols : List String) (name : String) : Option Nat :=
  match cols with
  | [] => none
  | c :: cs => if c = name then some 0 else (get_loc cs name).map (· + 1)

/-- The boolean mask `(df.index > gap_start) & (df.index < gap_end)` at one
row timestamp: strictly inside the gap interval `g`. -/
def gapHit (t : Int) (g : Int × Int) : Bool :=
  decide (g.1 < t) && decide (t < g.2)

/-- One assignment `df.iloc[(df.index > gap_start) & (df.index < gap_end), loc]
= value`: set column `loc` to `value` in every row whose timestamp lies
strictly between the bounds. -/
def applyGap (gap_start gap_end : Int) (loc : Nat) (value : Int)
    (rows : List (Int × List Int)) : List (Int × List Int) :=
  rows.map fun row =>
    if gapHit row.1 (gap_start, gap_end) then (row.1, row.2.set loc value)
    else row

/-- The inner loop of `prepare_data` for one registry entry: for each gap of
`name`, look the column up (`KeyError` when `name` is not a column — the
lookup sits inside the gap loop, so an entry with no gaps never looks up)
and overwrite the strictly-between rows. -/
def applyTagGaps (cols : List String) (value : Int) (name : String)
    (gaps : List (Int × Int)) (rows : List (Int × List Int)) :
    Except String (List (Int × List Int)) :=
  gaps.foldlM (fun rows g =>
    match get_loc cols name with
    | none => .error ("KeyError: " ++ name)
    | some loc => .ok (applyGap g.1 g.2 loc value rows)) rows

/-- Embeds `prepare_data(df)`: for every registry entry and every recorded gap,
overwrite the strictly-between rows of the matching column with
`replace_value`, and return the table. -/
def FillGapsPreprocessor.prepare_data (p : FillGapsPreprocessor) (df : Table) :
    Except String Table := do
  let rows ← p.gaps.foldlM (fun rows e =>
    applyTagGaps df.cols p.replace_value e.1 e.2 rows) df.rows
  return { df with rows := rows }

/-! ## Specification-side description of the correction phase

The specification describes `prepare_data` cell-wise: overwrite exactly the
cells of a gap-carrying tag column whose row timestamp lies strictly between
the recorded bounds, leaving bound rows and gap-free columns untouched. The
following definitions state that description; the refinement theorem below
proves the embedded `prepare_data` equal to it. -/

/-- Overwrite with `v` the cells at positions satisfying `pred`, leaving the
others unchanged. -/
def overwriteCells (pred : Nat → Bool) (v : Int) : List Int → List Int
  | [] => []
  | x :: xs => (if pred 0 then v else x) :: overwriteCells (fun j => pred (j + 1)) v xs

/-- Some recorded gap interval of the tag owning column `j` strictly
contains the timestamp `t`. -/
def colGapAt (p : FillGapsPreprocessor) (cols : List String) (t : Int) (j : Nat) : Bool :=
  p.gaps.any fun e => (get_loc cols e.1 == some j) && e.2.any (gapHit t)

/-- The table the specification prescribes: per row, every cell of a column
with a recorded gap strictly containing the row timestamp becomes
`replace_value`; every other cell, including the rows exactly at the gap
bounds and all gap-free columns, is unchanged. -/
def correctedTable (p : FillGapsPreprocessor) (df : Table) : Table :=
  { df with rows := df.rows.map fun row =>
      (row.1, overwriteCells (colGapAt p df.cols row.1) p.replace_value row.2) }

/-- The effect of one registry entry on one row of the table (a description
of the inner loop of `prepare_data`, used to bridge the table-level fold and
the cell-wise specification). -/
def rowEntry (cols : List String) (v : Int) (e : String × List (Int × Int))
    (row : Int × List Int) : Int × List Int :=
  match get_loc cols e.1 with
  | none => row
  | some loc => if e.2.any (gapHit row.1) then (row.1, row.2.set loc v) else row

/-! ## Tag-routed multi-provider loader

Modelled from the spec: the implementation of
`load_dataframes_from_multiple_providers` (module
`gordo_components.data_provider.providers`) is not part of this repository
snapshot — only its tests are — so the router is modelled from §4.1 of the
specification: construction is work-free; consumption partitions tags by
first capable provider, fails with a routing error naming every unroutable
tag before any provider is invoked, and otherwise dispatches one batch call
per provider group in provider-priority order, keeping original tag order
inside each group. -/

/-- Modelled from the spec: a capability-limited data source —
`can_handle_tag` plus the batch loader `load_dataframes`, yielding one raw
series per requested tag. Time bounds are opaque to routing and passed
through. -/
structure Provider where
  can_handle_tag : String → Bool
  load_dataframes : Option Int → Option Int → List String → List Series

/-- Modelled from the spec: the value returned by constructing the routed
call. Construction captures the arguments and performs no other work, which
is the embedded form of the generator-laziness contract. -/
structure RoutedCall where
  providers : List Provider
  from_ts : Option Int
  to_ts : Option Int
  tag_list : List String

/-- Modelled from the spec: constructing the routed call merely packages the
arguments; nothing is partitioned, validated or loaded yet. -/
def load_dataframes_from_multiple_providers (providers : List Provider)
    (from_ts to_ts : Option Int) (tag_list : List String) : RoutedCall :=
  ⟨providers, from_ts, to_ts, tag_list⟩

/-- The priority choice: index of the first provider whose capability
predicate accepts the tag. -/
def providerFor (providers : List Provider) (tag : String) : Option Nat :=
  providers.findIdx? fun p => p.can_handle_tag tag

/-- The requested tags no provider can serve, in request order. -/
def unroutableTags (providers : List Provider) (tags : List String) : List String :=
  tags.filter fun t => (providerFor providers t).isNone

/-- The group of tags assigned to provider `i`: exactly the tags whose first
capable provider is `i`, in original request order. -/
def groupTags (providers : List Provider) (tags : List String) (i : Nat) : List String :=
  tags.filter fun t => providerFor providers t == some i

/-- Modelled from the spec: consuming the routed sequence. Partitioning and
validation run first: any unroutable tag fails the whole consumption with a
routing error carrying the unmatched tags, before any loader runs.
Otherwise each provider with a nonempty group is invoked once, in
provider-priority order, and its series are emitted in its returned order. -/
def RoutedCall.consume (rc : RoutedCall) : Except (List String) (List Series) :=
  let bad := unroutableTags rc.providers rc.tag_list
  if bad.isEmpty then
    .ok ((rc.providers.enum.map fun pe =>
      let g := groupTags rc.providers rc.tag_list pe.1
      if g.isEmpty then []
      else pe.2.load_dataframes rc.from_ts rc.to_ts g).flatten)
  else .error bad

/-- The mock provider of the repository tests: accepts the tags matched by a
pattern predicate and yields, per accepted tag, one empty series named by
the pattern text. -/
def mockProvider (pattern : String) (accepts : String → Bool) : Provider :=
  { can_handle_tag := accepts,
    load_dataframes := fun _ _ tags =>
      (tags.filter accepts).map fun _ => ⟨pattern, none, []⟩ }

/-- The test producer for the regular expression `ab.*`: anchored match,
accepts exactly the tags whose first two characters are `a`, `b`. -/
def abProducer : Provider := mockProvider "ab.*" fun t => t.data.take 2 == ['a', 'b']

/-- The test producer for the regular expression `.*b.*`: accepts exactly
the tags containing a `b`. -/
def containingBProducer : Provider := mockProvider ".*b.*" fun t => t.data.contains 'b'

/-! ## Helper lemmas -/

theorem popKey_eq_none (r : Record) (k : String) (h : r.lookup k = none) :
    popKey r k = none := by
  induction r with
  | nil => rfl
  | cons kv rest ih =>
    obtain ⟨k1, v⟩ := kv
    simp only [List.lookup] at h
    cases hbeq : (k == k1) with
    | true => rw [hbeq] at h; cases h
    | false =>
      rw [hbeq] at h
      have hne : k1 ≠ k := by
        intro he
        subst he
        simp at hbeq
      simp only [popKey, if_neg hne, ih h, Option.map_none']

theorem get_loc_eq_none (cols : List String) (name : String) (h : name ∉ cols) :
    get_loc cols name = none := by
  induction cols with
  | nil => rfl
  | cons c cs ih =>
    have h1 : c ≠ name := fun he => h (he ▸ List.mem_cons_self c cs)
    have h2 : name ∉ cs := fun hm => h (List.mem_cons_of_mem c hm)
    simp [get_loc, if_neg h1, ih h2]

theorem get_loc_isSome (cols : List String) (name : String) (h : name ∈ cols) :
    ∃ loc, get_loc cols name = some loc := by
  induction cols with
  | nil => cases h
  | cons c cs ih =>
    by_cases hc : c = name
    · exact ⟨0, by simp [get_loc, hc]⟩
    · rcases List.mem_cons.mp h with he | hm
      · exact absurd he.symm hc
      · obtain ⟨l, hl⟩ := ih hm
        exact ⟨l + 1, by simp [get_loc, if_neg hc, hl]⟩

/-! ## Registry and factory claims -/

/-- C6: re-registering a name already present in the registry fails at
registration time with the naming-conflict error while the registry is left
as it was, so the original constructor still serves `create_preprocessor`;
a name never registered fails at construction time with the not-found
error. -/
theorem registry_conflict_and_unknown {α : Type}
    (types : List (String × Ctor α)) (ty ty2 : String)
    (c c2 : Ctor α) (kwargs : Record)
    (h : types.lookup ty = some c) (h2 : types.lookup ty2 = none) :
    preprocessor types ty c2
        = .error ("ValueError: Preprocessor with name has already been added: " ++ ty)
    ∧ create_preprocessor types ty kwargs = c kwargs
    ∧ create_preprocessor types ty2 kwargs
        = .error ("ValueError: Cannot find a preprocessor with name: " ++ ty2) := by
  refine ⟨?_, ?_, ?_⟩
  · unfold preprocessor
    rw [h]
    rfl
  · unfold create_preprocessor
    rw [h]
  · unfold create_preprocessor
    rw [h2]

/-- Witness for C6 at the registry holding `fill_gaps`. -/
theorem registry_conflict_and_unknown_witness :
    ([("fill_gaps", FillGapsPreprocessor.make)].lookup "fill_gaps"
        = some FillGapsPreprocessor.make)
    ∧ ([("fill_gaps", FillGapsPreprocessor.make)].lookup "no_such_type"
        = (none : Option (Ctor FillGapsPreprocessor)))
    ∧ (preprocessor [("fill_gaps", FillGapsPreprocessor.make)] "fill_gaps"
          FillGapsPreprocessor.make
        = .error ("ValueError: Preprocessor with name has already been added: "
            ++ "fill_gaps")
      ∧ create_preprocessor [("fill_gaps", FillGapsPreprocessor.make)] "fill_gaps"
          [("gap_size", CVal.int 2), ("replace_value", CVal.int 0)]
        = FillGapsPreprocessor.make
            [("gap_size", CVal.int 2), ("replace_value", CVal.int 0)]
      ∧ create_preprocessor [("fill_gaps", FillGapsPreprocessor.make)] "no_such_type"
          [("gap_size", CVal.int 2), ("replace_value", CVal.int 0)]
        = .error ("ValueError: Cannot find a preprocessor with name: "
            ++ "no_such_type")) :=
  ⟨rfl, rfl,
    registry_conflict_and_unknown [("fill_gaps", FillGapsPreprocessor.make)]
      "fill_gaps" "no_such_type" FillGapsPreprocessor.make
      FillGapsPreprocessor.make
      [("gap_size", CVal.int 2), ("replace_value", CVal.int 0)] rfl rfl⟩

/-- C7: normalizing a record with a `"type"` field produces exactly the
instance `create_preprocessor` builds from the remaining fields; the caller
record is left intact (the pop happens on a copy — the embedding is pure,
and the record still carries its `"type"` binding afterwards); a non-record
value passes through unchanged; a record with no `"type"` field fails with
the configuration error. -/
theorem normalize_matches_create {α : Type} (types : List (String × Ctor α))
    (T : String) (kw : Record) (x : α) (hkw : kw.lookup "type" = none) :
    normalize_preprocessor types (.dict (("type", .str T) :: kw))
        = (create_preprocessor types T kw).map PValue.inst
    ∧ (("type", CVal.str T) :: kw).lookup "type" = some (.str T)
    ∧ normalize_preprocessor types (.inst x) = .ok (.inst x)
    ∧ ∀ r : Record, r.lookup "type" = none →
        normalize_preprocessor types (.dict r)
          = .error "ValueError: A preprocessor type is empty" := by
  refine ⟨?_, rfl, rfl, ?_⟩
  · unfold normalize_preprocessor
    simp [popKey]
  · intro r hr
    simp only [normalize_preprocessor, popKey_eq_none r "type" hr]

/-- Witness for C7: round trip through the `fill_gaps` registration. -/
theorem normalize_matches_create_witness :
    ([("gap_size", CVal.int 2), ("replace_value", CVal.int 0)].lookup "type"
        = (none : Option CVal))
    ∧ (normalize_preprocessor [("fill_gaps", FillGapsPreprocessor.make)]
          (.dict (("type", .str "fill_gaps")
            :: [("gap_size", CVal.int 2), ("replace_value", CVal.int 0)]))
        = (create_preprocessor [("fill_gaps", FillGapsPreprocessor.make)]
            "fill_gaps"
            [("gap_size", CVal.int 2), ("replace_value", CVal.int 0)]).map
            PValue.inst
      ∧ (("type", CVal.str "fill_gaps")
          :: [("gap_size", CVal.int 2), ("replace_value", CVal.int 0)]).lookup "type"
        = some (.str "fill_gaps")
      ∧ normalize_preprocessor [("fill_gaps", FillGapsPreprocessor.make)]
          (.inst (⟨2, 0, []⟩ : FillGapsPreprocessor))
        = .ok (.inst (⟨2, 0, []⟩ : FillGapsPreprocessor))
      ∧ ∀ r : Record, r.lookup "type" = none →
          normalize_preprocessor [("fill_gaps", FillGapsPreprocessor.make)]
            (.dict r)
            = .error "ValueError: A preprocessor type is empty") :=
  ⟨rfl,
    normalize_matches_create [("fill_gaps", FillGapsPreprocessor.make)]
      "fill_gaps" [("gap_size", CVal.int 2), ("replace_value", CVal.int 0)]
      (⟨2, 0, []⟩ : FillGapsPreprocessor) rfl⟩

/-! ## Gap-aware preprocessor claims -/

/-- C1 (evaluation at the failing input): scanning a series named `"tag"`
with a `"Time"`-named index at timestamps 0,1,2,10,11 under threshold 2
records exactly one interval for `"tag"` — but it is (10, 18), built from
the later timestamp of the offending pair, not the (2, 10) the
specification prescribes from the earlier timestamp. -/
theorem prepare_series_records_late_interval :
    FillGapsPreprocessor.prepare_series ⟨2, 0, []⟩
        [⟨"tag", some "Time", [(0, 0), (1, 0), (2, 0), (10, 0), (11, 0)]⟩]
      = .ok (⟨2, 0, [("tag", [(10, 18)])]⟩,
          [⟨"tag", some "Time", [(0, 0), (1, 0), (2, 0), (10, 0), (11, 0)]⟩])
    ∧ [("tag", [((10 : Int), (18 : Int))])] ≠ [("tag", [((2 : Int), (10 : Int))])] :=
  ⟨by rfl, by decide⟩

/-- C8: `reset` empties the gap registry while leaving `gap_size` and
`replace_value` untouched, and any `prepare_data` issued on the reset state
returns its table with every cell unchanged. -/
theorem reset_clears_only_registry (p : FillGapsPreprocessor) (df : Table) :
    p.reset.gap_size = p.gap_size ∧ p.reset.replace_value = p.replace_value
    ∧ p.reset.gaps = [] ∧ p.reset.prepare_data df = .ok df :=
  ⟨rfl, rfl, rfl, rfl⟩

/-- C9: whenever `prepare_series` returns, it returns its input batch
itself — same series, same values, same order; scanning only records. -/
theorem prepare_series_returns_batch (p p' : FillGapsPreprocessor)
    (series out : List Series)
    (h : p.prepare_series series = .ok (p', out)) : out = series := by
  unfold FillGapsPreprocessor.prepare_series at h
  cases hf : series.foldlM (fun acc s => do
      let gs ← scanSeries p.gap_size s
      return gapsExtend acc s.name gs) p.gaps with
  | error e =>
    rw [hf] at h
    simp [Bind.bind, Except.bind] at h
  | ok g =>
    rw [hf] at h
    simp only [Bind.bind, Except.bind, pure, Except.pure, Except.ok.injEq,
      Prod.mk.injEq] at h
    exact h.2.symm

/-- Witness for C9 at a concrete two-gap-free batch. -/
theorem prepare_series_returns_batch_witness :
    (FillGapsPreprocessor.prepare_series ⟨2, 0, []⟩
        [⟨"a", some "Time", [(0, 5), (1, 6)]⟩]
      = .ok (⟨2, 0, [("a", [])]⟩, [⟨"a", some "Time", [(0, 5), (1, 6)]⟩]))
    ∧ [(⟨"a", some "Time", [(0, 5), (1, 6)]⟩ : Series)]
        = [⟨"a", some "Time", [(0, 5), (1, 6)]⟩] :=
  ⟨by rfl,
    prepare_series_returns_batch ⟨2, 0, []⟩ ⟨2, 0, [("a", [])]⟩
      [⟨"a", some "Time", [(0, 5), (1, 6)]⟩]
      [⟨"a", some "Time", [(0, 5), (1, 6)]⟩] (by rfl)⟩

/-- C10: a series holding at least one above-threshold gap must carry the
index name `"Time"`; under any other index name `prepare_series` fails with
the key-lookup error instead of recording the gap, because the scan reads
the timestamp column by the literal name `"Time"`. -/
theorem prepare_series_requires_time_index (p : FillGapsPreprocessor) (s : Series)
    (h1 : gapRows p.gap_size (s.data.map Prod.fst) ≠ [])
    (h2 : s.indexName ≠ some "Time") :
    p.prepare_series [s] = .error "KeyError: Time" := by
  have hscan : scanSeries p.gap_size s = .error "KeyError: Time" := by
    simp only [scanSeries]
    cases hrows : gapRows p.gap_size (s.data.map Prod.fst) with
    | nil => exact absurd hrows h1
    | cons r rs => simp [if_neg h2]
  unfold FillGapsPreprocessor.prepare_series
  simp [List.foldlM, hscan, Bind.bind, Except.bind]

/-- Witness for C10: an unnamed index plus a genuine gap. -/
theorem prepare_series_requires_time_index_witness :
    (gapRows (2 : Int)
        (([((0 : Int), (0 : Int)), (1, 0), (2, 0), (10, 0), (11, 0)]).map Prod.fst)
      ≠ [])
    ∧ ((none : Option String) ≠ some "Time")
    ∧ FillGapsPreprocessor.prepare_series ⟨2, 0, []⟩
        [⟨"tag", none, [(0, 0), (1, 0), (2, 0), (10, 0), (11, 0)]⟩]
      = .error "KeyError: Time" :=
  ⟨by decide, by decide,
    prepare_series_requires_time_index ⟨2, 0, []⟩
      ⟨"tag", none, [(0, 0), (1, 0), (2, 0), (10, 0), (11, 0)]⟩
      (by decide) (by decide)⟩

/-- C2 counterexample: with one recorded gap for tag `"a"` and a table whose
only column is `"b"`, `prepare_data` fails with a key-lookup error instead
of silently skipping the absent tag. -/
theorem prepare_data_absent_column_fails :
    FillGapsPreprocessor.prepare_data ⟨2, 0, [("a", [(2, 10)])]⟩ ⟨["b"], [(5, [7])]⟩
      = .error "KeyError: a" := by rfl

theorem applyTagGaps_absent (cols : List String) (v : Int) (name : String)
    (g : Int × Int) (gs : List (Int × Int)) (rows : List (Int × List Int))
    (h : name ∉ cols) :
    applyTagGaps cols v name (g :: gs) rows = .error ("KeyError: " ++ name) := by
  unfold applyTagGaps
  rw [List.foldlM_cons]
  simp [get_loc_eq_none cols name h, Bind.bind, Except.bind]

theorem foldlM_entries_error (cols : List String) (v : Int)
    (entries : List (String × List (Int × Int)))
    (h : ∃ e ∈ entries, e.2 ≠ [] ∧ e.1 ∉ cols) :
    ∀ rows, ∃ msg,
      entries.foldlM (fun rows e => applyTagGaps cols v e.1 e.2 rows) rows
        = .error msg := by
  induction entries with
  | nil => simp at h
  | cons e es ih =>
    intro rows
    rw [List.foldlM_cons]
    rcases h with ⟨e', he', hne, habs⟩
    rcases List.mem_cons.mp he' with he | hmem
    · subst he
      cases hgs : e'.2 with
      | nil => exact absurd hgs hne
      | cons g gs =>
        refine ⟨"KeyError: " ++ e'.1, ?_⟩
        rw [applyTagGaps_absent cols v e'.1 g gs rows habs]
        rfl
    · cases happ : applyTagGaps cols v e.1 e.2 rows with
      | error msg => exact ⟨msg, rfl⟩
      | ok rows' =>
        obtain ⟨msg, hm⟩ := ih ⟨e', hmem, hne, habs⟩ rows'
        exact ⟨msg, hm⟩

/-- C2 amended: a tag name with a nonempty list of recorded gap intervals
that is not a column of the table makes `prepare_data` fail with a
key-lookup error (the column lookup sits inside the per-gap loop); only a
registered tag whose recorded list is empty is skipped silently. -/
theorem prepare_data_absent_tag_fails (p : FillGapsPreprocessor) (df : Table)
    (h : ∃ e ∈ p.gaps, e.2 ≠ [] ∧ e.1 ∉ df.cols) :
    ∃ msg, p.prepare_data df = .error msg := by
  obtain ⟨msg, hm⟩ :=
    foldlM_entries_error df.cols p.replace_value p.gaps h df.rows
  refine ⟨msg, ?_⟩
  unfold FillGapsPreprocessor.prepare_data
  rw [hm]
  rfl

theorem exceptBindOk {ε α β : Type} (a : α) (f : α → Except ε β) :
    (Except.ok a : Except ε α) >>= f = f a := rfl

theorem beqNatComm (a b : Nat) : (a == b) = (b == a) := by
  by_cases h : a = b
  · subst h
    rfl
  · rw [beq_eq_false_iff_ne.mpr h, beq_eq_false_iff_ne.mpr (Ne.symm h)]

theorem natBeqSucc (a b : Nat) : ((a + 1 : Nat) == b + 1) = (a == b) := by
  by_cases h : a = b
  · subst h
    simp
  · rw [beq_eq_false_iff_ne.mpr h,
      beq_eq_false_iff_ne.mpr (by omega : a + 1 ≠ b + 1)]

theorem natBeqZeroSucc (l : Nat) : ((0 : Nat) == l + 1) = false :=
  beq_eq_false_iff_ne.mpr (by omega)

theorem optBeqNoneSome (j : Nat) : ((none : Option Nat) == some j) = false := rfl

theorem optBeqSomeSome (a b : Nat) : ((some a : Option Nat) == some b) = (a == b) := rfl

theorem overwriteCells_congr (v : Int) (cs : List Int) :
    ∀ p q : Nat → Bool, (∀ j, p j = q j) →
      overwriteCells p v cs = overwriteCells q v cs := by
  induction cs with
  | nil => intro p q h; rfl
  | cons x xs ih =>
    intro p q h
    simp only [overwriteCells, h 0]
    rw [ih (fun j => p (j + 1)) (fun j => q (j + 1)) (fun j => h (j + 1))]

theorem overwriteCells_false (v : Int) (cs : List Int) :
    overwriteCells (fun _ => false) v cs = cs := by
  induction cs with
  | nil => rfl
  | cons x xs ih => simp [overwriteCells, ih]

theorem overwriteCells_set (v : Int) (cs : List Int) :
    ∀ (loc : Nat) (p : Nat → Bool),
      overwriteCells p v (cs.set loc v)
        = overwriteCells (fun j => (j == loc) || p j) v cs := by
  induction cs with
  | nil => intro loc p; rfl
  | cons x xs ih =>
    intro loc p
    cases loc with
    | zero =>
      show (if p 0 then v else v) :: overwriteCells (fun j => p (j + 1)) v xs
          = (if ((0 : Nat) == 0) || p 0 then v else x)
            :: overwriteCells (fun j => ((j + 1 : Nat) == 0) || p (j + 1)) v xs
      rw [ite_self]
      have hhead : (if ((0 : Nat) == 0) || p 0 then v else x) = v := by simp
      rw [hhead]
      exact congrArg _ (overwriteCells_congr v xs _ _
        (fun j => (Bool.false_or (p (j + 1))).symm))
    | succ l =>
      show (if p 0 then v else x)
            :: overwriteCells (fun j => p (j + 1)) v (xs.set l v)
          = (if ((0 : Nat) == l + 1) || p 0 then v else x)
            :: overwriteCells (fun j => ((j + 1 : Nat) == l + 1) || p (j + 1)) v xs
      rw [ih l (fun j => p (j + 1)), natBeqZeroSucc l, Bool.false_or]
      exact congrArg _ (overwriteCells_congr v xs _ _
        (fun j => by rw [natBeqSucc j l]))

theorem applyTagGaps_ok (cols : List String) (v : Int) (name : String) (loc : Nat)
    (hloc : get_loc cols name = some loc) (gaps : List (Int × Int)) :
    ∀ rows, applyTagGaps cols v name gaps rows
      = .ok (rows.map fun row =>
          if gaps.any (gapHit row.1) then (row.1, row.2.set loc v) else row) := by
  induction gaps with
  | nil =>
    intro rows
    show Except.ok rows = _
    rw [show (fun row : Int × List Int =>
        if ([] : List (Int × Int)).any (gapHit row.1) then (row.1, row.2.set loc v)
        else row) = fun row => row from funext fun row => by simp, List.map_id']
  | cons g gs ih =>
    intro rows
    obtain ⟨ga, gb⟩ := g
    have hstep : applyTagGaps cols v name ((ga, gb) :: gs) rows
        = applyTagGaps cols v name gs (applyGap ga gb loc v rows) := by
      unfold applyTagGaps
      rw [List.foldlM_cons, hloc]
      rfl
    rw [hstep, ih (applyGap ga gb loc v rows)]
    refine congrArg Except.ok ?_
    unfold applyGap
    rw [List.map_map]
    refine congrArg (fun f => List.map f rows) (funext fun row => ?_)
    simp only [Function.comp]
    cases hg : gapHit row.1 (ga, gb) with
    | true =>
      rw [List.any_cons, hg, Bool.true_or]
      simp [List.set_set]
    | false =>
      rw [List.any_cons, hg, Bool.false_or]
      simp

theorem prepare_data_fold (cols : List String) (v : Int)
    (entries : List (String × List (Int × Int)))
    (h : ∀ e ∈ entries, e.2 ≠ [] → e.1 ∈ cols) :
    ∀ rows, entries.foldlM (fun rows e => applyTagGaps cols v e.1 e.2 rows) rows
      = .ok (rows.map fun row =>
          entries.foldl (fun row e => rowEntry cols v e row) row) := by
  induction entries with
  | nil =>
    intro rows
    simp only [List.foldlM_nil, List.foldl_nil, List.map_id']
    rfl
  | cons e es ih =>
    intro rows
    have hes : ∀ e' ∈ es, e'.2 ≠ [] → e'.1 ∈ cols :=
      fun e' he' => h e' (List.mem_cons_of_mem e he')
    rw [List.foldlM_cons]
    cases hloc : get_loc cols e.1 with
    | some loc =>
      rw [applyTagGaps_ok cols v e.1 loc hloc e.2 rows, exceptBindOk,
        ih hes, List.map_map]
      refine congrArg Except.ok
        (congrArg (fun f => List.map f rows) (funext fun row => ?_))
      simp only [Function.comp, List.foldl_cons]
      have harg : (if e.2.any (gapHit row.1) then (row.1, row.2.set loc v) else row)
          = rowEntry cols v e row := by
        simp [rowEntry, hloc]
      rw [harg]
    | none =>
      have hni : e.1 ∉ cols := by
        intro hin
        obtain ⟨l, hl⟩ := get_loc_isSome cols e.1 hin
        rw [hl] at hloc
        cases hloc
      have he2 : e.2 = [] := by
        cases hgs : e.2 with
        | nil => rfl
        | cons g gs =>
          exact absurd (h e (List.mem_cons_self e es) (by simp [hgs])) hni
      rw [he2]
      have hok : applyTagGaps cols v e.1 [] rows = .ok rows := rfl
      rw [hok, exceptBindOk, ih hes]
      refine congrArg Except.ok
        (congrArg (fun f => List.map f rows) (funext fun row => ?_))
      simp only [List.foldl_cons, rowEntry, hloc]

theorem foldl_rowEntry (cols : List String) (v : Int)
    (entries : List (String × List (Int × Int))) :
    ∀ (t : Int) (cs : List Int),
      entries.foldl (fun row e => rowEntry cols v e row) (t, cs)
        = (t, overwriteCells (fun j => entries.any fun e =>
            (get_loc cols e.1 == some j) && e.2.any (gapHit t)) v cs) := by
  induction entries with
  | nil =>
    intro t cs
    rw [List.foldl_nil,
      overwriteCells_congr v cs _ (fun _ => false) (fun j => List.any_nil),
      overwriteCells_false]
  | cons e es ih =>
    intro t cs
    rw [List.foldl_cons]
    cases hloc : get_loc cols e.1 with
    | none =>
      have hre : rowEntry cols v e (t, cs) = (t, cs) := by simp [rowEntry, hloc]
      rw [hre, ih t cs]
      refine congrArg (Prod.mk t) (overwriteCells_congr v cs _ _ fun j => ?_)
      simp [List.any_cons, hloc, optBeqNoneSome]
    | some loc =>
      cases hany : e.2.any (gapHit t) with
      | false =>
        have hre : rowEntry cols v e (t, cs) = (t, cs) := by
          simp [rowEntry, hloc, hany]
        rw [hre, ih t cs]
        refine congrArg (Prod.mk t) (overwriteCells_congr v cs _ _ fun j => ?_)
        simp [List.any_cons, hloc, hany]
      | true =>
        have hre : rowEntry cols v e (t, cs) = (t, cs.set loc v) := by
          simp [rowEntry, hloc, hany]
        rw [hre, ih t (cs.set loc v), overwriteCells_set v cs loc _]
        refine congrArg (Prod.mk t) (overwriteCells_congr v cs _ _ fun j => ?_)
        simp [List.any_cons, hloc, hany, optBeqSomeSome, beqNatComm j loc]

/-- C3: when every tag with recorded gaps is a column, `prepare_data`
returns exactly the specification table: per column owning a recorded gap,
exactly the cells whose row timestamp lies strictly between the recorded
bounds become `replace_value`; rows exactly at a bound and columns without
recorded gaps are unchanged. -/
theorem prepare_data_overwrites_strictly_between (p : FillGapsPreprocessor)
    (df : Table) (h : ∀ e ∈ p.gaps, e.2 ≠ [] → e.1 ∈ df.cols) :
    p.prepare_data df = .ok (correctedTable p df) := by
  unfold FillGapsPreprocessor.prepare_data
  rw [prepare_data_fold df.cols p.replace_value p.gaps h df.rows, exceptBindOk]
  show Except.ok _ = _
  unfold correctedTable
  refine congrArg Except.ok
    (congrArg (fun rs => Table.mk df.cols rs)
      (congrArg (fun f => List.map f df.rows) (funext fun row => ?_)))
  exact foldl_rowEntry df.cols p.replace_value p.gaps row.1 row.2

/-- Witness for C3: the gap interval (2, 10) with replacement 0 on rows at
timestamps 0, 1, 2, 5, 8, 10, 11 overwrites exactly the rows at 5 and 8. -/
theorem prepare_data_overwrites_strictly_between_witness :
    (∀ e ∈ ([("a", [((2 : Int), (10 : Int))])] :
        List (String × List (Int × Int))), e.2 ≠ [] → e.1 ∈ ["a"])
    ∧ FillGapsPreprocessor.prepare_data ⟨2, 0, [("a", [(2, 10)])]⟩
        ⟨["a"], [(0, [1]), (1, [1]), (2, [1]), (5, [1]), (8, [1]), (10, [1]),
          (11, [1])]⟩
      = .ok (correctedTable ⟨2, 0, [("a", [(2, 10)])]⟩
          ⟨["a"], [(0, [1]), (1, [1]), (2, [1]), (5, [1]), (8, [1]), (10, [1]),
            (11, [1])]⟩)
    ∧ correctedTable ⟨2, 0, [("a", [(2, 10)])]⟩
        ⟨["a"], [(0, [1]), (1, [1]), (2, [1]), (5, [1]), (8, [1]), (10, [1]),
          (11, [1])]⟩
      = ⟨["a"], [(0, [1]), (1, [1]), (2, [1]), (5, [0]), (8, [0]), (10, [1]),
          (11, [1])]⟩ :=
  ⟨by decide,
    prepare_data_overwrites_strictly_between ⟨2, 0, [("a", [(2, 10)])]⟩
      ⟨["a"], [(0, [1]), (1, [1]), (2, [1]), (5, [1]), (8, [1]), (10, [1]),
        (11, [1])]⟩ (by decide),
    by rfl⟩

/-- Witness for the amended C2. -/
theorem prepare_data_absent_tag_fails_witness :
    (∃ e ∈ ([("a", [((2 : Int), (10 : Int))])] :
        List (String × List (Int × Int))), e.2 ≠ [] ∧ e.1 ∉ ["b"])
    ∧ ∃ msg, FillGapsPreprocessor.prepare_data ⟨2, 0, [("a", [(2, 10)])]⟩
        ⟨["b"], [(5, [7])]⟩ = .error msg :=
  ⟨by decide,
    prepare_data_absent_tag_fails ⟨2, 0, [("a", [(2, 10)])]⟩
      ⟨["b"], [(5, [7])]⟩ (by decide)⟩

/-! ## Router claims (spec-modelled) -/

theorem providerFor_eq_map (ps : List Provider) (t : String) :
    providerFor ps t
      = (ps.map Provider.can_handle_tag).findIdx? (fun f => f t) := by
  unfold providerFor
  rw [List.findIdx?_map]
  rfl

theorem unroutableTags_congr (ps ps' : List Provider) (tags : List String)
    (h : ps'.map Provider.can_handle_tag = ps.map Provider.can_handle_tag) :
    unroutableTags ps' tags = unroutableTags ps tags := by
  unfold unroutableTags
  refine congrArg (fun f => List.filter f tags) (funext fun t => ?_)
  rw [providerFor_eq_map, providerFor_eq_map, h]

/-- C4: constructing the routed call is pure packaging that performs no
work and cannot raise; when some requested tag matches no capability
predicate, consuming the sequence fails with a routing error carrying
exactly the unroutable tags, and that outcome is unchanged under every
replacement of the providers' batch loaders — no loader is ever invoked
before the failure. -/
theorem routing_error_before_any_load (providers : List Provider)
    (from_ts to_ts : Option Int) (tags : List String)
    (h : unroutableTags providers tags ≠ []) :
    load_dataframes_from_multiple_providers providers from_ts to_ts tags
        = RoutedCall.mk providers from_ts to_ts tags
    ∧ (load_dataframes_from_multiple_providers providers from_ts to_ts tags).consume
        = .error (unroutableTags providers tags)
    ∧ ∀ providers' : List Provider,
        providers'.map Provider.can_handle_tag
          = providers.map Provider.can_handle_tag →
        (load_dataframes_from_multiple_providers providers' from_ts to_ts
            tags).consume
          = .error (unroutableTags providers tags) := by
  have hcons : ∀ ps2 : List Provider,
      unroutableTags ps2 tags = unroutableTags providers tags →
      (RoutedCall.mk ps2 from_ts to_ts tags).consume
        = .error (unroutableTags providers tags) := by
    intro ps2 h2
    simp only [RoutedCall.consume]
    rw [h2]
    cases hbad : unroutableTags providers tags with
    | nil => exact absurd hbad h
    | cons b bs => rfl
  exact ⟨rfl, hcons providers rfl,
    fun ps' hps => hcons ps' (unroutableTags_congr providers ps' tags hps)⟩

/-- Witness for C4: the test fixture, tags `["ab", "unmatched"]`. -/
theorem routing_error_before_any_load_witness :
    (unroutableTags [abProducer, containingBProducer] ["ab", "unmatched"] ≠ [])
    ∧ (load_dataframes_from_multiple_providers [abProducer, containingBProducer]
          none none ["ab", "unmatched"]
        = RoutedCall.mk [abProducer, containingBProducer] none none
            ["ab", "unmatched"]
      ∧ (load_dataframes_from_multiple_providers [abProducer, containingBProducer]
            none none ["ab", "unmatched"]).consume
        = .error (unroutableTags [abProducer, containingBProducer]
            ["ab", "unmatched"])
      ∧ ∀ providers' : List Provider,
          providers'.map Provider.can_handle_tag
            = [abProducer, containingBProducer].map Provider.can_handle_tag →
          (load_dataframes_from_multiple_providers providers' none none
              ["ab", "unmatched"]).consume
            = .error (unroutableTags [abProducer, containingBProducer]
                ["ab", "unmatched"]))
    ∧ unroutableTags [abProducer, containingBProducer] ["ab", "unmatched"]
        = ["unmatched"] :=
  ⟨by decide,
    routing_error_before_any_load [abProducer, containingBProducer] none none
      ["ab", "unmatched"] (by decide),
    by rfl⟩

/-- C5: every tag accepted by at least one capability predicate belongs to
the group of the earliest accepting provider and to no other group, and
consumption emits the groups' batch results in provider-priority order —
so a tag matched by several providers is served by the earliest one. -/
theorem first_capable_provider_serves_tag (providers : List Provider)
    (from_ts to_ts : Option Int) (tags : List String) (t : String) (i : Nat)
    (hmem : t ∈ tags) (hi : providerFor providers t = some i)
    (hall : unroutableTags providers tags = []) :
    t ∈ groupTags providers tags i
    ∧ (∀ j, j ≠ i → t ∉ groupTags providers tags j)
    ∧ (load_dataframes_from_multiple_providers providers from_ts to_ts
          tags).consume
        = .ok ((providers.enum.map fun pe =>
            if (groupTags providers tags pe.1).isEmpty then []
            else pe.2.load_dataframes from_ts to_ts
              (groupTags providers tags pe.1)).flatten) := by
  refine ⟨?_, ?_, ?_⟩
  · refine List.mem_filter.mpr ⟨hmem, ?_⟩
    rw [hi]
    simp
  · intro j hj hmemj
    have hpred := (List.mem_filter.mp hmemj).2
    rw [hi] at hpred
    exact hj (Option.some.inj (eq_of_beq hpred)).symm
  · simp only [RoutedCall.consume, load_dataframes_from_multiple_providers]
    rw [hall]
    rfl

/-- Witness for C5: `"abba"` is matched by both producers and served by the
first; the routed output is the first producer series followed by the
second producer series, as in the repository test. -/
theorem first_capable_provider_serves_tag_witness :
    ("abba" ∈ ["abba", "cba"])
    ∧ (providerFor [abProducer, containingBProducer] "abba" = some 0)
    ∧ (unroutableTags [abProducer, containingBProducer] ["abba", "cba"] = [])
    ∧ ("abba" ∈ groupTags [abProducer, containingBProducer] ["abba", "cba"] 0
      ∧ (∀ j, j ≠ 0 →
          "abba" ∉ groupTags [abProducer, containingBProducer] ["abba", "cba"] j)
      ∧ (load_dataframes_from_multiple_providers [abProducer, containingBProducer]
            none none ["abba", "cba"]).consume
        = .ok (([abProducer, containingBProducer].enum.map fun pe =>
            if (groupTags [abProducer, containingBProducer] ["abba", "cba"]
                pe.1).isEmpty then []
            else pe.2.load_dataframes none none
              (groupTags [abProducer, containingBProducer] ["abba", "cba"]
                pe.1)).flatten))
    ∧ (load_dataframes_from_multiple_providers [abProducer, containingBProducer]
          none none ["abba", "cba"]).consume
        = .ok [⟨"ab.*", none, []⟩, ⟨".*b.*", none, []⟩] :=
  ⟨by decide, by decide, by decide,
    first_capable_provider_serves_tag [abProducer, containingBProducer]
      none none ["abba", "cba"] "abba" 0 (by decide) (by decide) (by decide),
    by rfl⟩

end Gordo
